import Mathlib

/-!
Formal model of the `imctransfer` sync daemon (`src/imctransfer/daemon.py`).

The development shallowly embeds the daemon's core: the persisted URL database
(`get_db` / `save_db` / `clean_db`), the per-file download-and-verify step of
`Daemon.get_metadata_and_data`, the change-detection cycle of `Daemon.run`,
the interrupt handling of `Daemon.download_file` and `main`, and the metadata
aggregation (acquisition-date extraction and sorting).

Modelling conventions: file contents are `String`s; the SHA-1 function
(`hashlib.sha1` streamed by `Daemon.get_sha1`) is an abstract parameter
`h : String -> String`, a pure function of the full content; the local
filesystem is a partial map from paths to contents; directories
(`mkdir(parents=True)`) are not tracked.
-/

namespace Imctransfer

/-- A filesystem path: an absoluteness flag plus the list of components.
Mirrors `pathlib.Path` as used by the daemon (`/` concatenation,
`.absolute()` prefixing the working directory when relative). -/
structure FsPath where
  isAbs : Bool
  parts : List String
deriving DecidableEq, Repr

/-- Append one component, as Python's `path / component`. -/
def FsPath.child (p : FsPath) (c : String) : FsPath :=
  ⟨p.isAbs, p.parts ++ [c]⟩

/-- Python's `Path.absolute()`: a relative path is prefixed by the current
working directory, an absolute path is returned unchanged. -/
def absolutize (cwd p : FsPath) : FsPath :=
  if p.isAbs then p else ⟨true, cwd.parts ++ p.parts⟩

/-- The local filesystem: maps each path to the content of the file there,
or `none` when no file exists at that path. -/
abbrev FS := FsPath → Option String

/-- The empty filesystem. -/
def fsEmpty : FS := fun _ => none

/-- Writing a file (`open(path, "wb")` followed by a full write). -/
def fsUpdate (fs : FS) (p : FsPath) (v : String) : FS :=
  fun q => if q = p then some v else fs q

/-- `Path.unlink()`: remove the file at `p`. -/
def fsErase (fs : FS) (p : FsPath) : FS :=
  fun q => if q = p then none else fs q

/-- The state of the persisted database artifact (`~/.imctransfer.urls.json`):
absent, present but not valid JSON, or a well-formed JSON list of URLs. -/
inductive DbArtifact
  | missing
  | malformed
  | wellFormed (urls : List String)
deriving DecidableEq, Repr

/-- Embeds `Daemon.get_db` (daemon.py lines 183-188): `json.load` the file,
catching only `FileNotFoundError` (absent artifact gives the empty list).
A malformed artifact makes `json.load` raise `JSONDecodeError`, which is not
caught and propagates; the raised exception is the `.error` case. -/
def get_db (a : DbArtifact) : Except Unit (List String) :=
  match a with
  | .missing => .ok []
  | .malformed => .error ()
  | .wellFormed urls => .ok urls

/-- Embeds `Daemon.save_db` (daemon.py lines 190-192): `json.dump` the full
list into the artifact opened with mode `"w"`, replacing its content.
The byte-level write is not atomic; `saveDbTrace` below models the
intermediate states visible to a concurrent reader. -/
def save_db (urls : List String) : DbArtifact :=
  .wellFormed urls

/-- Embeds `Daemon.clean_db` (daemon.py lines 76-79):
`db_file.unlink(missing_ok=True)`. -/
def clean_db (_a : DbArtifact) : DbArtifact :=
  .missing

/-- Embeds `Daemon.__init__` (daemon.py lines 45-51). The constructor accepts
a `fresh` parameter, but its first statement rebinds `fresh = False`
(line 46), so the `clean_db` call is unreachable. -/
def daemonInit (fresh : Bool) (a : DbArtifact) : DbArtifact :=
  let fresh := false
  if fresh then clean_db a else a

/-- Embeds the daemon construction in `main` (daemon.py line 351):
`Daemon(client=client, log=log, args=args)` passes no `fresh` argument, so
the default `False` is used; `args.fresh` (the `--fresh` flag) is never
consulted anywhere in `main`. -/
def mainStartup (_argsFresh : Bool) (a : DbArtifact) : DbArtifact :=
  daemonInit false a

/-- How a daemon run ends, as observed at the boundary of `main`
(daemon.py lines 353-361): the timeout path inside `run` calls
`sys.exit(0)`; a `KeyboardInterrupt` propagating out of `run` is caught and
`sys.exit(0)` follows; a `BoxOAuthException` gives `sys.exit(1)`. -/
inductive RunEnd
  | timeout
  | interrupt
  | authFail
deriving DecidableEq, Repr

/-- The process exit status produced by `main` for each way the run ends. -/
def mainExitCode : RunEnd → Nat
  | .timeout => 0
  | .interrupt => 0
  | .authFail => 1

/-- Embeds `Daemon.download_file` (daemon.py lines 161-168).
`open(output_file, "wb")` creates or truncates the destination and
`file.download_to` streams content into it. `interrupt = some frag` means a
`KeyboardInterrupt` arrives after `frag` has been written: the handler
unlinks the destination and re-raises (the `.error` case carries the
filesystem after cleanup; no intermediate caller catches
`KeyboardInterrupt`, so the exception reaches `main`). -/
def download_file (interrupt : Option String) (content : String)
    (output : FsPath) (fs : FS) : Except FS FS :=
  match interrupt with
  | none => .ok (fsUpdate fs output content)
  | some frag => .error (fsErase (fsUpdate fs output frag) output)

/-- One JSON-escaped character as produced by `json.dump` for the string
characters the daemon stores (URLs: no control characters). -/
def jsonEscapeChar (c : Char) : String :=
  if c = '"' then "\\\"" else if c = '\\' then "\\\\" else String.mk [c]

/-- A JSON string literal for `s`. -/
def jsonQuote (s : String) : String :=
  "\"" ++ String.join (s.toList.map jsonEscapeChar) ++ "\""

/-- The serialized form `json.dump` writes for the URL list (default
separators: elements joined by a comma and a space). -/
def serializeDb (urls : List String) : String :=
  "[" ++ String.intercalate ", " (urls.map jsonQuote) ++ "]"

/-- The sequence of artifact contents visible to a concurrent reader during
`Daemon.save_db` (daemon.py lines 190-192): the prior content, then the
empty content the moment `open(db_file, "w")` truncates the file, then the
fully written serialization. -/
def saveDbTrace (old : String) (urls : List String) : List String :=
  [old, "", serializeDb urls]

/-- A write trace is atomic when every state a reader can observe is either
the old content or the new content. -/
def atomicTrace (old new : String) (tr : List String) : Prop :=
  ∀ s ∈ tr, s = old ∨ s = new

instance (old new : String) (tr : List String) :
    Decidable (atomicTrace old new tr) :=
  List.decidableBAll _ tr

/-- Python's `str.replace(pat, rep)` over character lists: leftmost,
non-overlapping replacement, scanning left to right. The pattern is passed
as head plus tail so every step consumes at least one character; `fuel`
bounds the recursion by the input length. -/
def replaceFuel (p : Char) (ps rep : List Char) : Nat → List Char → List Char
  | 0, l => l
  | _ + 1, [] => []
  | fuel + 1, c :: rest =>
    if c = p ∧ ps.isPrefixOf rest then
      rep ++ replaceFuel p ps rep fuel (rest.drop ps.length)
    else
      c :: replaceFuel p ps rep fuel rest

/-- Python's `str.replace` for a non-empty pattern. -/
def replaceAll (p : Char) (ps rep : List Char) (l : List Char) : List Char :=
  replaceFuel p ps rep l.length l

/-- The sample name derived in `Daemon.get_metadata_and_data` (daemon.py
line 104): `file.name.replace(".mcd", "").replace(" ", "_")`. -/
def sampleName (fileName : String) : String :=
  String.mk (replaceAll ' ' [] ['_']
    (replaceAll '.' ['m', 'c', 'd'] [] fileName.toList))

/-- Split a character list on a separator, keeping empty segments, as
Python's `str.split(sep)`. -/
def splitOnChar (sep : Char) : List Char → List (List Char)
  | [] => [[]]
  | c :: rest =>
    match splitOnChar sep rest with
    | [] => [[]]
    | seg :: segs => if c = sep then [] :: seg :: segs else (c :: seg) :: segs

/-- The Box object id taken from a URL in `Daemon.get_metadata_and_data`
(daemon.py line 99): `url.split("/")[-1]`. -/
def objectIdOf (url : String) : String :=
  String.mk ((splitOnChar '/' url.toList).getLastD [])

/-- The configuration fields of `args` consumed by the sync pipeline:
`--no-mcd` (download), `--overwrite`, `--no-metadata` (metadata) and the
data directory. -/
structure Args where
  download : Bool
  overwrite : Bool
  metadata : Bool
  dataDir : FsPath
deriving DecidableEq, Repr

/-- The per-file remote metadata fetched in `Daemon.get_metadata_and_data`
(daemon.py line 101) plus the content a download of the current version
would deliver. `sha1` is `file.file_version.sha1`, the provider's
authoritative digest; `content` are the bytes `file.download_to` streams,
which need not hash to `sha1` when the transfer corrupts them. -/
structure RemoteFile where
  name : String
  created_at : String
  created_by : String
  sha1 : String
  content : String
deriving DecidableEq, Repr

/-- One row of the `_meta` table built by `Daemon.get_metadata_and_data`
(daemon.py lines 134-143). `created_at` keeps the ISO-8601 timestamp
(the `iso8601.parse_date`/`isoformat` normalization is elided). -/
structure FileRecord where
  sample_name : String
  mcd_file : String
  created_by : String
  created_at : String
  url : String
  sha1 : String
  downloaded : Bool
  written_to : Option FsPath
deriving DecidableEq, Repr

/-- The `_meta[name]` row literal of daemon.py lines 134-143, as a function
of the final `downloaded` flag: `written_to` is the absolute destination
when `downloaded` is true and `None` otherwise. -/
def mkRecord (cwd : FsPath) (url : String) (rf : RemoteFile)
    (output : FsPath) (downloaded : Bool) : FileRecord :=
  { sample_name := sampleName rf.name
    mcd_file := rf.name
    created_by := rf.created_by
    created_at := rf.created_at
    url := url
    sha1 := rf.sha1
    downloaded := downloaded
    written_to := if downloaded then some (absolutize cwd output) else none }

/-- Embeds the body of the per-URL loop of `Daemon.get_metadata_and_data`
(daemon.py lines 97-143) for one file, threading the filesystem.
`h` is the SHA-1 oracle (`Daemon.get_sha1` as a function of file content).
Steps, exactly as in the source: derive the sample name and destination
path; when downloading is enabled, test an existing copy's hash (a match
sets `downloaded`, a mismatch marks a re-download); transfer when the file
is absent, overwrite is forced, or a mismatch was found; after a transfer
compare the destination hash to `sha1` - on a match set `downloaded`, on a
mismatch unlink the destination (the `downloaded` flag is left as it was);
finally emit the record, with `written_to` set to the absolute destination
exactly when `downloaded` ended up true. -/
def processFile (h : String → String) (cwd : FsPath) (args : Args)
    (url : String) (rf : RemoteFile) (fs : FS) : FS × FileRecord :=
  let name := sampleName rf.name
  let output := (args.dataDir.child name).child rf.name
  let mk : Bool → FileRecord := mkRecord cwd url rf output
  if args.download then
    let exists0 := (fs output).isSome
    let mismatch := exists0 && !(decide (h ((fs output).getD "") = rf.sha1))
    let downloaded0 := exists0 && !mismatch
    if !exists0 || args.overwrite || mismatch then
      let fs1 := fsUpdate fs output rf.content
      if h rf.content = rf.sha1 then
        (fs1, mk true)
      else
        (fsErase fs1 output, mk downloaded0)
    else
      (fs, mk downloaded0)
  else
    (fs, mk false)

/-- Python dict assignment `m[k] = v`: an existing key keeps its position
and gets the new value, a new key is appended. `_meta` in
`Daemon.get_metadata_and_data` is such a dict keyed by the sample name
(daemon.py line 134). -/
def dictInsert (m : List (String × FileRecord)) (k : String) (v : FileRecord) :
    List (String × FileRecord) :=
  if k ∈ m.map Prod.fst then
    m.map (fun p => if p.1 = k then (k, v) else p)
  else
    m ++ [(k, v)]

/-- The keys of the `_meta` dict, in order: one per row of the resulting
metadata table (`pd.DataFrame(_meta).T`). -/
def keysOf (m : List (String × FileRecord)) : List String :=
  m.map Prod.fst

/-- The per-URL loop of `Daemon.get_metadata_and_data` (daemon.py
lines 97-143): fetch each file by the object id taken from its URL, run the
download-and-verify step, and store the record under its sample name. -/
def execGo (h : String → String) (cwd : FsPath) (args : Args)
    (files : String → RemoteFile) :
    List String → FS → List (String × FileRecord) →
      FS × List (String × FileRecord)
  | [], fs, acc => (fs, acc)
  | url :: rest, fs, acc =>
    let res := processFile h cwd args url (files (objectIdOf url)) fs
    execGo h cwd args files rest res.1 (dictInsert acc res.2.sample_name res.2)

/-- The executor over a whole listing, started with an empty `_meta`. -/
def runExecutor (h : String → String) (cwd : FsPath) (args : Args)
    (files : String → RemoteFile) (urls : List String) (fs : FS) :
    FS × List (String × FileRecord) :=
  execGo h cwd args files urls fs []

/-- The observable outcome of one pass of the loop body of `Daemon.run`
(daemon.py lines 60-70): the artifact after the pass, the `_meta` rows the
executor produced, and how often the executor (`get_metadata_and_data`'s
per-file loop), the aggregator (its metadata phase, lines 145-156) and
`save_db` were invoked. -/
structure CycleOut where
  artifact : DbArtifact
  rows : List (String × FileRecord)
  executorCalls : Nat
  processed : List String
  aggregatorCalls : Nat
  saveCalls : Nat
deriving DecidableEq, Repr

/-- Embeds one iteration of `Daemon.run` (daemon.py lines 60-70), given the
fresh listing `urls` returned by `query_for_file_type`: load the database
(a malformed artifact raises out of the loop), compare it to `urls` with
ordered list equality, and either run `get_metadata_and_data` over the whole
listing followed by `save_db`, or do nothing. -/
def cycle (h : String → String) (cwd : FsPath) (args : Args)
    (files : String → RemoteFile) (urls : List String)
    (a : DbArtifact) (fs : FS) : Except Unit (CycleOut × FS) :=
  match get_db a with
  | .error e => .error e
  | .ok db =>
    if db ≠ urls then
      let res := runExecutor h cwd args files urls fs
      .ok (⟨save_db urls, res.2, 1, urls, 1, 1⟩, res.1)
    else
      .ok (⟨a, [], 0, [], 0, 0⟩, fs)

/-- The acquisition-date column derived in `Daemon.get_metadata_and_data`
(daemon.py lines 151-153): `str.extract` with the anchored pattern of `20`
followed by six digits captures the 8-character prefix, anything else gives
a missing value. -/
def extractAcquisition (s : String) : Option String :=
  match s.toList with
  | '2' :: '0' :: rest =>
    if 6 ≤ rest.length then
      if (rest.take 6).all (fun c => c.isDigit) then
        some (String.mk ('2' :: '0' :: rest.take 6))
      else none
    else none
  | _ => none

/-- Decimal reading of a digit string. -/
def digitsToNat (l : List Char) : Nat :=
  l.foldl (fun a c => a * 10 + (c.toNat - 48)) 0

/-- The calendar date `(year, month, day)` encoded by the extracted
`YYYYMMDD` acquisition column, when present. -/
def acquisitionDate (s : String) : Option (Nat × Nat × Nat) :=
  (extractAcquisition s).map fun d =>
    (digitsToNat (d.toList.take 4),
     digitsToNat ((d.toList.drop 4).take 2),
     digitsToNat ((d.toList.drop 6).take 2))

/-- The sort key of a metadata row: its extracted acquisition date. -/
def acqKey (r : FileRecord) : Option String :=
  extractAcquisition r.sample_name

/-- The comparison `sort_values("acquisition_date")` sorts by: ascending on
present keys, missing values (`NaN`) after every present key. -/
def recLeB (a b : FileRecord) : Bool :=
  match acqKey a, acqKey b with
  | some x, some y => decide (x ≤ y)
  | some _, none => true
  | none, some _ => false
  | none, none => true

/-- `recLeB` as a relation. -/
def recLE (a b : FileRecord) : Prop :=
  recLeB a b = true

instance : DecidableRel recLE := fun a b =>
  instDecidableEqBool (recLeB a b) true

instance : IsTotal FileRecord recLE where
  total a b := by
    unfold recLE recLeB
    cases acqKey a <;> cases acqKey b <;> simp
    exact le_total _ _

instance : IsTrans FileRecord recLE where
  trans a b c hab hbc := by
    unfold recLE recLeB at *
    cases ha : acqKey a <;> cases hb : acqKey b <;> cases hc : acqKey c <;>
      simp_all
    exact le_trans hab hbc

/-- Embeds `meta.sort_values("acquisition_date")` (daemon.py line 154):
a comparison sort of the rows on the acquisition-date key, missing values
last (the default `na_position`). -/
def sortMeta (rows : List FileRecord) : List FileRecord :=
  List.insertionSort recLE rows

/-- Embeds the metadata phase of `Daemon.get_metadata_and_data` (daemon.py
lines 145-156): skipped when `--no-metadata` was given or the table is
empty, otherwise the sorted rows are written to the metadata file. -/
def aggregateMeta (args : Args) (rows : List FileRecord) :
    Option (List FileRecord) :=
  if args.metadata = false then none
  else if rows.isEmpty then none
  else some (sortMeta rows)

/-- A SHA-1 oracle for a scenario where the provider's digest for the
current version is `h-good`, the pre-existing local copy `good-bytes`
hashes to it, and the corrupted transfer `zz-corrupt` does not. -/
def hOne : String → String :=
  fun s => if s = "good-bytes" then "h-good" else "h-bad"

/-- A working directory for concrete scenarios. -/
def cwdOne : FsPath := ⟨true, []⟩

/-- Configuration with downloading and forced overwrite on. -/
def argsOne : Args := ⟨true, true, true, ⟨true, ["data"]⟩⟩

/-- A remote file whose advertised digest is `h-good` but whose transfer
delivers corrupted bytes. -/
def rfOne : RemoteFile :=
  ⟨"s.mcd", "2021-01-02T03:04:05+00:00", "alice", "h-good", "zz-corrupt"⟩

/-- The destination path `data/s/s.mcd` computed for `rfOne`. -/
def outOne : FsPath := ⟨true, ["data", "s", "s.mcd"]⟩

/-- A filesystem holding a verified pre-existing copy at the destination. -/
def fsOne : FS := fsUpdate fsEmpty outOne "good-bytes"

/-- A SHA-1 oracle for a second overwrite scenario. -/
def hFour : String → String :=
  fun s => if s = "orig-bytes" then "sha-t" else "sha-x"

/-- Configuration with downloading and forced overwrite on, metadata off. -/
def argsFour : Args := ⟨true, true, false, ⟨true, ["d4"]⟩⟩

/-- A remote file with digest `sha-t` whose transfer delivers `corrupted`. -/
def rfFour : RemoteFile :=
  ⟨"t 1.mcd", "2022-03-04T05:06:07+00:00", "bob", "sha-t", "corrupted"⟩

/-- The destination path `d4/t_1/t 1.mcd` computed for `rfFour`. -/
def outFour : FsPath := ⟨true, ["d4", "t_1", "t 1.mcd"]⟩

/-- A filesystem holding a verified pre-existing copy at `outFour`. -/
def fsFour : FS := fsUpdate fsEmpty outFour "orig-bytes"

/-- A trivial SHA-1 oracle for scenarios that never hash. -/
def hNine : String → String := fun _ => "x"

/-- Configuration with downloading off. -/
def argsNine : Args := ⟨false, false, true, ⟨true, ["dn"]⟩⟩

/-- Two distinct remote files, ids `1` and `2`, whose names `a b.mcd` and
`a_b.mcd` normalize to the same sample name `a_b`. -/
def filesNine : String → RemoteFile := fun id =>
  if id = "1" then ⟨"a b.mcd", "t1", "u1", "s1", "c1"⟩
  else ⟨"a_b.mcd", "t2", "u2", "s2", "c2"⟩

theorem serializeDb_ne_empty (urls : List String) : serializeDb urls ≠ "" := by
  intro hcontra
  have hlen := congrArg String.length hcontra
  simp [serializeDb, String.length_append] at hlen
  exact absurd hlen.1.1 (by decide)

/-- C1: the claimed invariant fails on the code. With overwrite forced and a
pre-existing copy that verified (setting `downloaded = True`), a corrupted
re-download is hash-checked, found mismatching and unlinked, but the
`downloaded` flag is never reset (daemon.py lines 130-132): the emitted
record has `downloaded = true` and `written_to` set while no file remains at
the destination, so no local hash can equal `contentHash`. -/
theorem downloaded_true_with_destination_deleted :
    (processFile hOne cwdOne argsOne "box.com/file/9" rfOne fsOne).2.downloaded = true
    ∧ (processFile hOne cwdOne argsOne "box.com/file/9" rfOne fsOne).1 outOne = none
    ∧ (processFile hOne cwdOne argsOne "box.com/file/9" rfOne fsOne).2.written_to
        = some outOne := by
  decide

/-- C3: the start-fresh directive never deletes the persisted artifact.
`Daemon.__init__` rebinds `fresh = False` before testing it (daemon.py
line 46) and `main` constructs the daemon without passing `args.fresh`
(line 351), so with `--fresh` given and an existing database the artifact
survives startup untouched. -/
theorem fresh_flag_never_deletes_db :
    mainStartup true (save_db ["box.com/file/1"]) = save_db ["box.com/file/1"]
    ∧ mainStartup true (save_db ["box.com/file/1"]) ≠ DbArtifact.missing := by
  decide

/-- C4: the post-transfer mismatch handling fails on the code. At the same
kind of input as C1 (overwrite of a verified pre-existing copy by a
corrupted transfer), the destination is indeed deleted, but the record is
emitted with `downloaded = true` where the claim requires `false`. -/
theorem mismatch_after_overwrite_keeps_downloaded_true :
    (processFile hFour cwdOne argsFour "box.com/file/7" rfFour fsFour).2.downloaded = true
    ∧ (processFile hFour cwdOne argsFour "box.com/file/7" rfFour fsFour).1 outFour = none := by
  decide

/-- C5: a cancellation signal arriving mid-transfer makes `download_file`
unlink the partially written destination and re-raise, so no file remains at
the destination path, the interrupt propagates (the `.error` outcome), and
`main` maps the interrupt to exit status 0. -/
theorem interrupt_cleanup_and_exit :
    ∀ (frag content : String) (output : FsPath) (fs : FS),
      download_file (some frag) content output fs
          = .error (fsErase (fsUpdate fs output frag) output)
      ∧ fsErase (fsUpdate fs output frag) output output = none
      ∧ mainExitCode .interrupt = 0 := by
  intro frag content output fs
  refine ⟨rfl, ?_, rfl⟩
  simp [fsErase]

/-- C6 counterexample: loading a malformed persisted artifact raises
(`json.load`'s decode error is not caught by `get_db`, which handles only a
missing file), contradicting the claim that load never raises and recovers
malformed state as empty. -/
theorem getDb_malformed_raises :
    get_db .malformed = .error ()
    ∧ get_db .malformed ≠ .ok ([] : List String) := by
  exact ⟨rfl, fun hcontra => Except.noConfusion hcontra⟩

/-- C6 amended: loading returns the empty state when the artifact is
missing; when the artifact exists but is malformed, load raises instead of
recovering. -/
theorem getDb_missing_empty_malformed_raises :
    get_db .missing = .ok ([] : List String)
    ∧ get_db .malformed = .error () := by
  exact ⟨rfl, rfl⟩

/-- C7 counterexample: the save trace of replacing a one-URL database by
another passes through the truncated empty state, which is neither the old
nor the new artifact content, so the write is not atomic. -/
theorem saveDb_trace_not_atomic_example :
    ¬ atomicTrace (serializeDb ["box.com/file/1"]) (serializeDb ["box.com/file/2"])
        (saveDbTrace (serializeDb ["box.com/file/1"]) ["box.com/file/2"]) := by
  decide

/-- C7 amended: `save_db` overwrites the artifact in place - the final
visible state is exactly the serialization of the full new list, but the
write is not atomic: opening with mode `w` first truncates the file, so a
concurrent reader can observe an empty artifact whenever the prior content
was non-empty. -/
theorem saveDb_overwrites_nonatomically :
    ∀ (old : String) (urls : List String),
      saveDbTrace old urls = [old, "", serializeDb urls]
      ∧ (saveDbTrace old urls).getLast? = some (serializeDb urls)
      ∧ (old ≠ "" → ¬ atomicTrace old (serializeDb urls) (saveDbTrace old urls)) := by
  intro old urls
  refine ⟨rfl, rfl, ?_⟩
  intro hold hatomic
  have hmem : "" ∈ saveDbTrace old urls := by simp [saveDbTrace]
  rcases hatomic "" hmem with hcase | hcase
  · exact hold hcase.symm
  · exact serializeDb_ne_empty urls hcase.symm

/-- C7 witness: the amended statement at a concrete non-empty prior
content. -/
theorem saveDb_overwrites_nonatomically_witness :
    saveDbTrace "[]" ["box.com/file/3"] = ["[]", "", serializeDb ["box.com/file/3"]]
    ∧ ¬ atomicTrace "[]" (serializeDb ["box.com/file/3"])
        (saveDbTrace "[]" ["box.com/file/3"]) := by
  have hthm := saveDb_overwrites_nonatomically "[]" ["box.com/file/3"]
  exact ⟨hthm.1, hthm.2.2 (by decide)⟩

/-- C2: one pass of the run loop. When the loaded database equals the fresh
listing, the executor, the aggregator and `save_db` are all skipped and the
artifact (and the filesystem) are returned unchanged; when they differ, the
executor and the aggregator each run exactly once over the whole current
listing, `save_db` runs once, and the persisted state afterwards loads back
as exactly the new listing. -/
theorem change_detection_cycle :
    ∀ (h : String → String) (cwd : FsPath) (args : Args)
      (files : String → RemoteFile) (urls : List String)
      (a : DbArtifact) (fs : FS) (db : List String),
      get_db a = .ok db →
      (db = urls →
        cycle h cwd args files urls a fs = .ok (⟨a, [], 0, [], 0, 0⟩, fs))
      ∧ (db ≠ urls →
        cycle h cwd args files urls a fs =
          .ok (⟨save_db urls, (runExecutor h cwd args files urls fs).2,
                1, urls, 1, 1⟩,
               (runExecutor h cwd args files urls fs).1)
        ∧ get_db (save_db urls) = .ok urls) := by
  intro h cwd args files urls a fs db hdb
  constructor
  · intro he
    subst he
    unfold cycle
    rw [hdb]
    simp
  · intro hne
    unfold cycle
    rw [hdb]
    simp only [if_pos hne]
    exact ⟨trivial, rfl⟩

/-- C2 witness: a missing artifact loads as the empty state, which differs
from a one-element listing, so the full pipeline runs once and the saved
state loads back as that listing. -/
theorem change_detection_cycle_witness :
    cycle hNine cwdOne argsNine filesNine ["box.com/file/1"] .missing fsEmpty =
      .ok (⟨save_db ["box.com/file/1"],
            (runExecutor hNine cwdOne argsNine filesNine
              ["box.com/file/1"] fsEmpty).2,
            1, ["box.com/file/1"], 1, 1⟩,
           (runExecutor hNine cwdOne argsNine filesNine
              ["box.com/file/1"] fsEmpty).1)
    ∧ get_db (save_db ["box.com/file/1"]) = .ok ["box.com/file/1"] := by
  have hthm := change_detection_cycle hNine cwdOne argsNine filesNine
    ["box.com/file/1"] .missing fsEmpty [] rfl
  exact hthm.2 (by decide)

theorem recLE_none_mono {a b : FileRecord} (hab : recLE a b)
    (ha : acqKey a = none) : acqKey b = none := by
  unfold recLE recLeB at hab
  rw [ha] at hab
  cases hb : acqKey b
  · rfl
  · rw [hb] at hab
    simp at hab

/-- C8: the aggregator derives the acquisition date from the sample name by
the anchored 8-digit pattern - `20230615_cohort1` yields 2023-06-15 and
`cohortX` yields none - and the metadata rows are a permutation of the
input sorted ascending by that key, with undated rows deterministically
placed after all dated rows. -/
theorem metadata_sorted_by_acquisition_date :
    acquisitionDate "20230615_cohort1" = some (2023, 6, 15)
    ∧ acquisitionDate "cohortX" = none
    ∧ ∀ rows : List FileRecord,
        (sortMeta rows).Perm rows
        ∧ List.Sorted recLE (sortMeta rows)
        ∧ List.Pairwise (fun a b => acqKey a = none → acqKey b = none)
            (sortMeta rows) := by
  refine ⟨by decide, by decide, ?_⟩
  intro rows
  refine ⟨List.perm_insertionSort recLE rows,
    List.sorted_insertionSort recLE rows, ?_⟩
  exact (List.sorted_insertionSort recLE rows).imp
    (fun hab ha => recLE_none_mono hab ha)

theorem keysOf_dictInsert (m : List (String × FileRecord)) (k : String)
    (v : FileRecord) :
    keysOf (dictInsert m k v)
      = if k ∈ keysOf m then keysOf m else keysOf m ++ [k] := by
  unfold dictInsert keysOf
  split
  · rename_i hmem
    rw [List.map_map]
    apply List.map_congr_left
    intro p hp
    by_cases hpk : p.1 = k
    · simp [hpk]
    · simp [hpk]
  · simp

theorem keysOf_dictInsert_nodup (m : List (String × FileRecord)) (k : String)
    (v : FileRecord) (hm : (keysOf m).Nodup) :
    (keysOf (dictInsert m k v)).Nodup := by
  rw [keysOf_dictInsert]
  split
  · exact hm
  · rename_i hmem
    rw [List.nodup_append]
    refine ⟨hm, List.nodup_singleton k, ?_⟩
    intro x hx hx1
    simp at hx1
    subst hx1
    exact hmem hx

theorem mem_keysOf_dictInsert_self (m : List (String × FileRecord))
    (k : String) (v : FileRecord) : k ∈ keysOf (dictInsert m k v) := by
  rw [keysOf_dictInsert]
  split
  · assumption
  · simp

theorem mem_keysOf_dictInsert_mono (m : List (String × FileRecord))
    (k k' : String) (v : FileRecord) (hk : k' ∈ keysOf m) :
    k' ∈ keysOf (dictInsert m k v) := by
  rw [keysOf_dictInsert]
  split
  · exact hk
  · simp [hk]

theorem processFile_sample_name (h : String → String) (cwd : FsPath)
    (args : Args) (url : String) (rf : RemoteFile) (fs : FS) :
    (processFile h cwd args url rf fs).2.sample_name = sampleName rf.name := by
  unfold processFile
  dsimp only
  split
  · split
    · split <;> rfl
    · rfl
  · rfl

theorem execGo_keys (h : String → String) (cwd : FsPath) (args : Args)
    (files : String → RemoteFile) :
    ∀ (urls : List String) (fs : FS) (acc : List (String × FileRecord)),
      (keysOf acc).Nodup →
      (keysOf (execGo h cwd args files urls fs acc).2).Nodup
      ∧ (∀ k ∈ keysOf acc, k ∈ keysOf (execGo h cwd args files urls fs acc).2)
      ∧ (∀ url ∈ urls,
          sampleName (files (objectIdOf url)).name
            ∈ keysOf (execGo h cwd args files urls fs acc).2) := by
  intro urls
  induction urls with
  | nil =>
    intro fs acc hacc
    exact ⟨hacc, fun k hk => hk, by simp⟩
  | cons url rest ih =>
    intro fs acc hacc
    have hstep : execGo h cwd args files (url :: rest) fs acc
        = execGo h cwd args files rest
            (processFile h cwd args url (files (objectIdOf url)) fs).1
            (dictInsert acc
              (processFile h cwd args url (files (objectIdOf url)) fs).2.sample_name
              (processFile h cwd args url (files (objectIdOf url)) fs).2) := rfl
    rw [hstep]
    set rec2 := (processFile h cwd args url (files (objectIdOf url)) fs).2 with hrec
    have hnodup := keysOf_dictInsert_nodup acc rec2.sample_name rec2 hacc
    obtain ⟨ih1, ih2, ih3⟩ := ih (processFile h cwd args url (files (objectIdOf url)) fs).1
      (dictInsert acc rec2.sample_name rec2) hnodup
    refine ⟨ih1, ?_, ?_⟩
    · intro k hk
      exact ih2 k (mem_keysOf_dictInsert_mono acc rec2.sample_name k rec2 hk)
    · intro u hu
      rcases List.mem_cons.mp hu with hu1 | hu2
      · subst hu1
        have hself := mem_keysOf_dictInsert_self acc rec2.sample_name rec2
        have hname : rec2.sample_name = sampleName (files (objectIdOf u)).name := by
          rw [hrec]
          exact processFile_sample_name h cwd args u (files (objectIdOf u)) fs
        rw [← hname]
        exact ih2 _ hself
      · exact ih3 u hu2

/-- C9 amended: the metadata table has exactly one row per distinct
normalized sample name - the row keys are duplicate-free and every listed
file's sample name has a row (colliding files share one row, the later
overwriting the earlier). -/
theorem one_row_per_distinct_sample_name :
    ∀ (h : String → String) (cwd : FsPath) (args : Args)
      (files : String → RemoteFile) (urls : List String) (fs : FS),
      (keysOf (runExecutor h cwd args files urls fs).2).Nodup
      ∧ ∀ url ∈ urls,
          sampleName (files (objectIdOf url)).name
            ∈ keysOf (runExecutor h cwd args files urls fs).2 := by
  intro h cwd args files urls fs
  have hk := execGo_keys h cwd args files urls fs [] (by simp [keysOf])
  exact ⟨hk.1, hk.2.2⟩

/-- C9 witness: the amended statement at a concrete one-element listing. -/
theorem one_row_per_distinct_sample_name_witness :
    (keysOf (runExecutor hNine cwdOne argsNine filesNine
        ["box.com/file/1"] fsEmpty).2).Nodup
    ∧ sampleName (filesNine (objectIdOf "box.com/file/1")).name
        ∈ keysOf (runExecutor hNine cwdOne argsNine filesNine
            ["box.com/file/1"] fsEmpty).2 := by
  have hthm := one_row_per_distinct_sample_name hNine cwdOne argsNine
    filesNine ["box.com/file/1"] fsEmpty
  exact ⟨hthm.1, hthm.2 "box.com/file/1" (by decide)⟩

/-- C9 counterexample: two distinct listed files whose names normalize to
the same sample name produce a single metadata row, not one row per listed
file. -/
theorem duplicate_sample_names_collapse_to_one_row :
    (["box.com/file/1", "box.com/file/2"] : List String).length = 2
    ∧ (runExecutor hNine cwdOne argsNine filesNine
        ["box.com/file/1", "box.com/file/2"] fsEmpty).2.length = 1 := by
  decide

theorem absolutize_ok (cwd p : FsPath) (hne : p.parts ≠ []) :
    ((absolutize cwd p).isAbs && !(absolutize cwd p).parts.isEmpty) = true := by
  unfold absolutize
  split
  · rename_i hp
    simp [hp, List.isEmpty_eq_true, hne]
  · simp [List.isEmpty_eq_true, List.append_eq_nil, hne]

theorem mkRecord_ok (cwd : FsPath) (url : String) (rf : RemoteFile)
    (output : FsPath) (b : Bool) (hout : output.parts ≠ []) :
    ((mkRecord cwd url rf output b).written_to).isSome = b
    ∧ ((mkRecord cwd url rf output b).written_to.all
        (fun p => p.isAbs && !p.parts.isEmpty)) = true := by
  cases b
  · simp [mkRecord, Option.all]
  · simp [mkRecord, Option.all, absolutize_ok cwd output hout]

/-- C10: an emitted record's `written_to` is populated exactly when
`downloaded` is true, and whenever populated it is a non-empty absolute
path. -/
theorem written_to_absolute_iff_downloaded :
    ∀ (h : String → String) (cwd : FsPath) (args : Args) (url : String)
      (rf : RemoteFile) (fs : FS),
      ((processFile h cwd args url rf fs).2.written_to).isSome
        = (processFile h cwd args url rf fs).2.downloaded
      ∧ ((processFile h cwd args url rf fs).2.written_to.all
          (fun p => p.isAbs && !p.parts.isEmpty)) = true := by
  intro h cwd args url rf fs
  have hout : ((args.dataDir.child (sampleName rf.name)).child rf.name).parts ≠ [] := by
    simp [FsPath.child]
  unfold processFile
  dsimp only
  split
  · split
    · split
      · exact mkRecord_ok cwd url rf _ _ hout
      · exact mkRecord_ok cwd url rf _ _ hout
    · exact mkRecord_ok cwd url rf _ _ hout
  · exact mkRecord_ok cwd url rf _ _ hout

end Imctransfer
